import Mathlib

/-!
Shallow embedding of the workbook store module of the insights frontend
(the module defining useWorkbook, makeWorkbook, getWorkbookResource and
getLinkedQueries), together with theorems settling the spec claims about
it.  Every definition below is translated from the source; the JavaScript
Map, Set and Promise primitives are modelled by association lists,
insertion-ordered duplicate-free lists and an explicit result type.
-/

/-! ## Workbook registry (useWorkbook) -/

/-- A JavaScript value passed as the workbook identifier: the source applies
String(name) to its argument, so both strings and numbers can arrive. -/
inductive JSVal
  | str (s : String)
  | num (n : Int)

/-- The String(name) coercion applied at the top of useWorkbook. -/
def jsString : JSVal → String
  | .str s => s
  | .num n => toString n

/-- The module-level `workbooks = new Map<string, Workbook>()` registry.
Workbook object identity is modelled by an allocation counter: makeWorkbook
is modelled as allocating the next fresh identifier. -/
structure WorkbookRegistry where
  entries : List (String × Nat)
  nextId : Nat

/-- Embedding of useWorkbook: coerce the argument to a string, return the
cached instance when present, otherwise make a workbook, cache it and
return it. -/
def useWorkbook (reg : WorkbookRegistry) (name : JSVal) : Nat × WorkbookRegistry :=
  let key := jsString name
  match reg.entries.lookup key with
  | some wb => (wb, reg)
  | none =>
      let wb := reg.nextId
      (wb, { entries := reg.entries ++ [(key, wb)], nextId := reg.nextId + 1 })

/-! ## Share permissions (getSharePermissions / updateSharePermissions) -/

/-- The UI access roles of WorkbookSharePermission. -/
inductive AccessRole
  | view
  | edit
deriving DecidableEq

/-- A backend user permission row as returned by
insights.api.workbooks.get_share_permissions. -/
structure RawUserPermission where
  user : String
  full_name : String
  read : Bool
  write : Bool
deriving DecidableEq

/-- A UI-side user permission; access is undefined when the backend flags
grant no read. -/
structure UIUserPermission where
  email : String
  full_name : String
  access : Option AccessRole
deriving DecidableEq

/-- A user permission row as sent by updateSharePermissions. -/
structure OutboundUserPermission where
  user : String
  read : Bool
  write : Bool
deriving DecidableEq

/-- The per-row mapping performed by getSharePermissions:
access = p.read ? (p.write ? 'edit' : 'view') : undefined. -/
def mapRawToUI (p : RawUserPermission) : UIUserPermission :=
  { email := p.user
    full_name := p.full_name
    access := if p.read then (if p.write then some .edit else some .view) else none }

/-- The per-row mapping performed by updateSharePermissions:
read = (access === 'view'), write = (access === 'edit'). -/
def mapUIToOutbound (p : UIUserPermission) : OutboundUserPermission :=
  { user := p.email
    read := decide (p.access = some .view)
    write := decide (p.access = some .edit) }

/-! ## Entity removal (removeQuery / removeChart / removeDashboard) -/

/-- A lightweight entity reference row of workbook.doc.queries /
charts / dashboards (removal only inspects the name). -/
structure EntityRef where
  name : String
  title : String
deriving DecidableEq

/-- JavaScript Array.prototype.findIndex: the index of the first match, or
-1 when there is none. -/
def findIndexJS {α : Type} (p : α → Bool) (l : List α) : Int :=
  match l.findIdx? p with
  | none => -1
  | some i => i

/-- A navigation side effect performed through the router. -/
inductive NavTarget
  | tab (entityType : String) (name : String)
  | workbookRoot
  | workbookList
  | none
deriving DecidableEq

/-- The observable outcome of a confirmed _remove call: the list after the
splice, the navigation issued, and whether the remote delete was issued. -/
structure RemoveOutcome where
  items : List EntityRef
  nav : NavTarget
  remoteDeleteIssued : Bool
deriving DecidableEq

/-- Embedding of the _remove closure shared in shape by removeQuery,
removeChart and removeDashboard: find the index of the named row (early
return when findIndex gives -1), issue the remote delete and splice the
row out, then navigate to the previous sibling when index - 1 >= 0 and to
the workbook root otherwise.  The sibling name is read from the list
before the splice has run, exactly as in the source where the splice
happens in the delete continuation. -/
def removeEntityConfirmed (entityType : String) (items : List EntityRef) (name : String) :
    RemoveOutcome :=
  let idx : Int := findIndexJS (fun row => row.name == name) items
  if idx = -1 then
    { items := items, nav := NavTarget.none, remoteDeleteIssued := false }
  else
    let newItems := items.eraseIdx idx.toNat
    let nextIndex : Int := idx - 1
    let nav :=
      if nextIndex ≥ 0 then
        NavTarget.tab entityType (((items.get? nextIndex.toNat).map EntityRef.name).getD "")
      else NavTarget.workbookRoot
    { items := newItems, nav := nav, remoteDeleteIssued := true }

/-- An externally visible effect of the destructive operations. -/
inductive Effect
  | remoteDelete (name : String)
  | navigate (nav : NavTarget)
deriving DecidableEq

/-- The effect trace of one _remove call after confirmation. -/
def removeEntityEffects (entityType : String) (items : List EntityRef) (name : String) :
    List Effect :=
  let o := removeEntityConfirmed entityType items name
  if o.remoteDeleteIssued then [Effect.remoteDelete name, Effect.navigate o.nav] else []

/-- The argument record of confirmDialog. -/
structure ConfirmDialogSpec where
  title : String
  message : String
  theme : Option String := Option.none
  onSuccess : Unit → List Effect

/-- Semantics of confirmDialog: the onSuccess continuation runs exactly
when the user confirms; otherwise nothing happens. -/
def confirmDialogRun (dialog : ConfirmDialogSpec) (userConfirmed : Bool) : List Effect :=
  if userConfirmed then dialog.onSuccess () else []

/-- Embedding of removeQuery: a confirmation dialog whose success
continuation is the _remove closure. -/
def removeQueryRun (items : List EntityRef) (name : String) (userConfirmed : Bool) :
    List Effect :=
  confirmDialogRun
    { title := "Delete Query"
      message := "Are you sure you want to delete this query?"
      onSuccess := fun _ => removeEntityEffects "query" items name }
    userConfirmed

/-- Embedding of removeChart. -/
def removeChartRun (items : List EntityRef) (name : String) (userConfirmed : Bool) :
    List Effect :=
  confirmDialogRun
    { title := "Delete Chart"
      message := "Are you sure you want to delete this chart?"
      onSuccess := fun _ => removeEntityEffects "chart" items name }
    userConfirmed

/-- Embedding of removeDashboard. -/
def removeDashboardRun (items : List EntityRef) (name : String) (userConfirmed : Bool) :
    List Effect :=
  confirmDialogRun
    { title := "Delete Dashboard"
      message := "Are you sure you want to delete this dashboard?"
      onSuccess := fun _ => removeEntityEffects "dashboard" items name }
    userConfirmed

/-- Embedding of deleteWorkbook: confirmation dialog with a red theme whose
success continuation deletes the workbook and navigates to the workbook
list. -/
def deleteWorkbookRun (workbookName : String) (userConfirmed : Bool) : List Effect :=
  confirmDialogRun
    { title := "Delete Workbook"
      message := "Are you sure you want to delete this workbook?"
      theme := some "red"
      onSuccess := fun _ =>
        [Effect.remoteDelete workbookName, Effect.navigate NavTarget.workbookList] }
    userConfirmed

/-! ## Auto-save controller -/

/-- The debounce option passed to watchDebounced. -/
def autoSaveDebounceMs : Nat := 2000

/-- The immediate option passed to watchDebounced. -/
def autoSaveWatcherImmediate : Bool := true

/-- Events observed by the auto-save controller: a change of
workbook.doc.enable_auto_save, or a firing of the debounced watcher with
the current isdirty and _pauseAutoSave values. -/
inductive AutoSaveEvent
  | enableChanged (enable : Bool)
  | debounceFire (isdirty : Bool) (paused : Bool)

/-- Embedding of the wheneverChanges handler on enable_auto_save: the state
is whether stopAutoSaveWatcher is non-null.  When auto save was disabled
and a watcher exists, stop it; when auto save is enabled and no watcher
exists, start one. -/
def autoSaveHandleEnableChange (watcherActive : Bool) (enable : Bool) : Bool :=
  let w := if !enable && watcherActive then false else watcherActive
  if enable && !w then true else w

/-- The debounced watcher source and callback:
shouldSave = isdirty && !_pauseAutoSave, and the workbook is saved exactly
when shouldSave holds. -/
def autoSaveShouldSave (isdirty paused : Bool) : Bool := isdirty && !paused

/-- One step of the auto-save controller: returns the new watcher state and
whether workbook.save() was invoked during the step.  A debounce firing can
only save while the watcher is active; stopping the watcher cancels it. -/
def autoSaveStep (watcherActive : Bool) : AutoSaveEvent → Bool × Bool
  | .enableChanged e => (autoSaveHandleEnableChange watcherActive e, false)
  | .debounceFire d p => (watcherActive, watcherActive && autoSaveShouldSave d p)

/-- Run of the auto-save controller over an event list, collecting the
save flag of every step. -/
def autoSaveRun (watcherActive : Bool) : List AutoSaveEvent → Bool × List Bool
  | [] => (watcherActive, [])
  | e :: es =>
      let step := autoSaveStep watcherActive e
      let rest := autoSaveRun step.1 es
      (rest.1, step.2 :: rest.2)

/-! ## Remote call outcomes (error handling) -/

/-- Result of a remote call. -/
inductive RemoteResult (α : Type)
  | ok (value : α)
  | err (msg : String)
deriving DecidableEq

/-- The outcome of a promise chain as observed by the caller: the settled
result and the error toasts shown while handling it. -/
structure CallOutcome (α : Type) where
  result : RemoteResult α
  errorToasts : List String
deriving DecidableEq

/-- Embedding of updateSharePermissions error handling:
call(...).catch(showErrorToast).  A rejection is caught, a toast is shown
and the returned promise resolves. -/
def updateSharePermissionsOutcome (remote : RemoteResult Unit) : CallOutcome Unit :=
  match remote with
  | .ok v => { result := .ok v, errorToasts := [] }
  | .err msg => { result := .ok (), errorToasts := [msg] }

/-- Embedding of getSharePermissions error handling: call(...).then(map)
with no rejection handler, so a failure propagates and shows no toast. -/
def getSharePermissionsOutcome (remote : RemoteResult (List RawUserPermission)) :
    CallOutcome (List UIUserPermission) :=
  match remote with
  | .ok perms => { result := .ok (perms.map mapRawToUI), errorToasts := [] }
  | .err msg => { result := .err msg, errorToasts := [] }

/-- Embedding of the entity delete chains (query.delete().then(splice) and
the chart/dashboard, insert and save calls): no rejection handler is
attached, so a failure propagates and shows no toast. -/
def entityDeleteOutcome (remote : RemoteResult Unit) : CallOutcome Unit :=
  match remote with
  | .ok v => { result := .ok v, errorToasts := [] }
  | .err msg => { result := .err msg, errorToasts := [] }

/-- Embedding of the track_view call in getWorkbookResource:
workbook.call(track_view) is followed by a catch with an empty handler, so
a failure is swallowed silently: the chain resolves and no toast is
shown. -/
def trackViewOutcome (remote : RemoteResult Unit) : CallOutcome Unit :=
  match remote with
  | .ok v => { result := .ok v, errorToasts := [] }
  | .err _ => { result := .ok (), errorToasts := [] }

/-! ## Linked-query resolution (getLinkedQueries) -/

/-- The table field of a query operation; the type tag is optional,
mirroring the type-in-op.table property test of the source. -/
structure OpTable where
  type : Option String
  query_name : String
deriving DecidableEq

/-- A query operation; the table field is optional, mirroring the
table-in-op property test of the source. -/
structure Operation where
  table : Option OpTable
deriving DecidableEq

/-- The parts of a query that getLinkedQueries reads: the current
operation list and the active edit index (-1 when no edit is active). -/
structure QueryDef where
  currentOperations : List Operation
  activeEditIndex : Int

/-- The operation list getLinkedQueries works on: a copy of
currentOperations, truncated by splice(activeEditIndex) when
activeEditIndex > -1. -/
def effectiveOperations (q : QueryDef) : List Operation :=
  if q.activeEditIndex > -1 then q.currentOperations.take q.activeEditIndex.toNat
  else q.currentOperations

/-- The per-operation test of the first forEach: an operation contributes
op.table.query_name exactly when it has a table with type tag query. -/
def opLinkedQuery (op : Operation) : Option String :=
  match op.table with
  | none => none
  | some t =>
      match t.type with
      | none => none
      | some ty => if ty = "query" then some t.query_name else none

/-- The direct query references collected from the effective operation list
of a query; the graph maps each query name to its definition via the
useQuery registry. -/
def directRefs (G : String → QueryDef) (qname : String) : List String :=
  (effectiveOperations (G qname)).filterMap opLinkedQuery

/-- JavaScript Set.prototype.add on an insertion-ordered duplicate-free
list: append the element when absent. -/
def insertUnique (s : List String) (x : String) : List String :=
  if x ∈ s then s else s ++ [x]

/-- Add every element of a list to the set, in order. -/
def addAll (s : List String) (xs : List String) : List String :=
  xs.foldl insertUnique s

/-- The second forEach of getLinkedQueries over the linkedQueries set.
JavaScript Set.forEach also visits elements inserted during the iteration,
so the loop is a worklist scan: process the element at index i, add every
name returned by the recursive getLinkedQueries call, and continue until
the index passes the end of the set.  rec is the recursive call at the
remaining call-depth budget; the loop fuel bounds the number of
iterations, and exhausting either budget yields none (the JavaScript
original has no budget and simply does not return in those runs). -/
def glqLoop (rec : String → Option (List String)) :
    Nat → List String → Nat → Option (List String)
  | 0, _, _ => none
  | n + 1, s, i =>
      if h : i < s.length then
        match rec (s.get ⟨i, h⟩) with
        | none => none
        | some res => glqLoop rec n (addAll s res) (i + 1)
      else some s

/-- Fuel-indexed embedding of getLinkedQueries: build the fresh
linkedQueries set from the effective operations of the named query, then
run the set forEach, each recursive call being getLinkedQueries at one
less fuel.  The function returns some list exactly when the JavaScript
original returns within the given budget; every execution of the original
that returns at all is captured by some finite fuel. -/
def getLinkedQueriesFuel (G : String → QueryDef) : Nat → String → Option (List String)
  | 0 => fun _ => none
  | n + 1 => fun qname =>
      glqLoop (getLinkedQueriesFuel G n) n (addAll [] (directRefs G qname)) 0

/-- Divergence of getLinkedQueries on a query: no fuel budget suffices,
i.e. the JavaScript original never returns on that input. -/
def glqDiverges (G : String → QueryDef) (qname : String) : Prop :=
  ∀ n, getLinkedQueriesFuel G n qname = none

/-- One dependency edge of the reference graph: b is a direct reference of
the effective operations of a. -/
def stepRel (G : String → QueryDef) (a b : String) : Prop :=
  b ∈ directRefs G a

/-- x is a linked query of q: reachable from some direct reference of q by
following dependency edges. -/
def linkedReachable (G : String → QueryDef) (q x : String) : Prop :=
  ∃ d ∈ directRefs G q, Relation.ReflTransGen (stepRel G) d x

/-- An operation whose table references the named query. -/
def queryTableOp (qn : String) : Operation :=
  { table := some { type := some "query", query_name := qn } }

/-- A reference graph with a self-cycle: query A references itself. -/
def selfRefGraph : String → QueryDef := fun _ =>
  { currentOperations := [queryTableOp "A"], activeEditIndex := -1 }

/-- A reference graph with a two-cycle: A references B and B references
A. -/
def twoCycleGraph : String → QueryDef := fun q =>
  if q = "A" then { currentOperations := [queryTableOp "B"], activeEditIndex := -1 }
  else if q = "B" then { currentOperations := [queryTableOp "A"], activeEditIndex := -1 }
  else { currentOperations := [], activeEditIndex := -1 }

/-- An acyclic diamond graph: A references B and C, each of B and C
references D, and C additionally references E beyond its active edit
index (so the E reference is truncated away). -/
def diamondGraph : String → QueryDef := fun q =>
  if q = "A" then
    { currentOperations := [queryTableOp "B", queryTableOp "C"], activeEditIndex := -1 }
  else if q = "B" then
    { currentOperations := [queryTableOp "D"], activeEditIndex := -1 }
  else if q = "C" then
    { currentOperations := [queryTableOp "D", queryTableOp "E"], activeEditIndex := 1 }
  else { currentOperations := [], activeEditIndex := -1 }

/-! ## Helper lemmas -/

/-- Looking a key up in an appended association list skips a first part
that does not contain it. -/
theorem lookup_append_of_none {l₁ l₂ : List (String × Nat)} {k : String}
    (h : l₁.lookup k = none) : (l₁ ++ l₂).lookup k = l₂.lookup k := by
  induction l₁ with
  | nil => rfl
  | cons p l ih =>
      rw [List.cons_append]
      rw [List.lookup_cons] at h ⊢
      cases hpk : (k == p.fst) with
      | true => rw [hpk] at h; simp at h
      | false => rw [hpk] at h; exact ih h

/-- Membership after a set add. -/
theorem mem_insertUnique {s : List String} {x y : String} :
    y ∈ insertUnique s x ↔ y ∈ s ∨ y = x := by
  unfold insertUnique
  by_cases hx : x ∈ s
  · rw [if_pos hx]
    constructor
    · exact Or.inl
    · rintro (h | rfl)
      · exact h
      · exact hx
  · rw [if_neg hx]
    simp [List.mem_append]

/-- Membership after adding a whole list to the set. -/
theorem mem_addAll {y : String} (xs : List String) :
    ∀ s, y ∈ addAll s xs ↔ y ∈ s ∨ y ∈ xs := by
  induction xs with
  | nil => intro s; simp [addAll]
  | cons x xs ih =>
      intro s
      have hrw : addAll s (x :: xs) = addAll (insertUnique s x) xs := rfl
      rw [hrw, ih, mem_insertUnique, List.mem_cons]
      tauto

/-- A set add preserves freedom from duplicates. -/
theorem nodup_insertUnique {s : List String} (h : s.Nodup) (x : String) :
    (insertUnique s x).Nodup := by
  unfold insertUnique
  by_cases hx : x ∈ s
  · rwa [if_pos hx]
  · rw [if_neg hx]
    simp [List.nodup_append, h, hx]

/-- Adding a whole list to the set preserves freedom from duplicates. -/
theorem nodup_addAll (xs : List String) : ∀ s, s.Nodup → (addAll s xs).Nodup := by
  induction xs with
  | nil => intro s h; exact h
  | cons x xs ih => intro s h; exact ih _ (nodup_insertUnique h x)

/-- Adding to the set only appends new elements at the end. -/
theorem addAll_eq_append (xs : List String) : ∀ s, ∃ t, addAll s xs = s ++ t := by
  induction xs with
  | nil => intro s; exact ⟨[], by simp [addAll]⟩
  | cons x xs ih =>
      intro s
      obtain ⟨t, ht⟩ := ih (insertUnique s x)
      have hrw : addAll s (x :: xs) = addAll (insertUnique s x) xs := rfl
      by_cases hx : x ∈ s
      · refine ⟨t, ?_⟩
        rw [hrw, ht]
        unfold insertUnique
        rw [if_pos hx]
      · refine ⟨[x] ++ t, ?_⟩
        rw [hrw, ht]
        unfold insertUnique
        rw [if_neg hx, List.append_assoc]

/-- Adding to the set never shrinks it. -/
theorem length_le_addAll (s xs : List String) : s.length ≤ (addAll s xs).length := by
  obtain ⟨t, ht⟩ := addAll_eq_append xs s
  rw [ht]
  simp

/-- On the two-cycle graph, getLinkedQueries exhausts any fuel budget on
both A and B: each recursive call starts a fresh dedup set, so the mutual
references recurse forever. -/
theorem glq_twoCycle_diverges_pair :
    ∀ n, getLinkedQueriesFuel twoCycleGraph n "A" = none ∧
      getLinkedQueriesFuel twoCycleGraph n "B" = none := by
  intro n
  induction n with
  | zero => exact ⟨rfl, rfl⟩
  | succ n ih =>
      constructor
      · show glqLoop (getLinkedQueriesFuel twoCycleGraph n) n
            (addAll [] (directRefs twoCycleGraph "A")) 0 = none
        have hd : addAll [] (directRefs twoCycleGraph "A") = ["B"] := by decide
        rw [hd]
        cases n with
        | zero => rfl
        | succ m => simp [glqLoop, ih.2]
      · show glqLoop (getLinkedQueriesFuel twoCycleGraph n) n
            (addAll [] (directRefs twoCycleGraph "B")) 0 = none
        have hd : addAll [] (directRefs twoCycleGraph "B") = ["A"] := by decide
        rw [hd]
        cases n with
        | zero => rfl
        | succ m => simp [glqLoop, ih.1]

/-- Invariant proof for the worklist scan of getLinkedQueries: assuming the
recursive calls are fully characterised, a successful scan run yields a
duplicate-free list containing exactly the names reachable from the direct
references of the starting query.  The invariants over the working set s
at index i are: no duplicates, i in range, soundness of every member,
presence of all direct references, and closure of the processed initial
segment under reachability. -/
theorem glqLoop_char (G : String → QueryDef) (q₀ : String)
    (rec : String → Option (List String))
    (Hrec : ∀ q l, rec q = some l →
      l.Nodup ∧ ∀ x, (x ∈ l ↔ linkedReachable G q x)) :
    ∀ n s i l, glqLoop rec n s i = some l →
      s.Nodup →
      i ≤ s.length →
      (∀ x ∈ s, linkedReachable G q₀ x) →
      (∀ d ∈ directRefs G q₀, d ∈ s) →
      (∀ x ∈ s.take i, ∀ y, Relation.ReflTransGen (stepRel G) x y → y ∈ s) →
      l.Nodup ∧ ∀ x, (x ∈ l ↔ linkedReachable G q₀ x) := by
  intro n
  induction n with
  | zero =>
      intro s i l hl
      exact absurd hl (by simp [glqLoop])
  | succ n ih =>
      intro s i l hl hnd hi hsound hdir hclosed
      rw [glqLoop] at hl
      by_cases h : i < s.length
      · rw [dif_pos h] at hl
        cases hrec : rec (s.get ⟨i, h⟩) with
        | none => rw [hrec] at hl; exact absurd hl (by simp)
        | some res =>
            rw [hrec] at hl
            obtain ⟨hresnd, hreschar⟩ := Hrec _ _ hrec
            have hxmem : s.get ⟨i, h⟩ ∈ s := List.get_mem s i h
            have hxreach : linkedReachable G q₀ (s.get ⟨i, h⟩) := hsound _ hxmem
            have htake1 : (addAll s res).take (i + 1) = s.take i ++ [s.get ⟨i, h⟩] := by
              obtain ⟨t, ht⟩ := addAll_eq_append res s
              rw [ht, List.take_append_eq_append_take]
              have h0 : i + 1 - s.length = 0 := by omega
              rw [h0, List.take_zero, List.append_nil, List.take_succ]
              have hg : s[i]? = some (s.get ⟨i, h⟩) := by
                rw [List.getElem?_eq_getElem h]
                simp [List.get_eq_getElem]
              rw [hg]
              rfl
            apply ih (addAll s res) (i + 1) l hl
            · exact nodup_addAll res s hnd
            · have := length_le_addAll s res
              omega
            · intro y hy
              rcases (mem_addAll res s).1 hy with hys | hyr
              · exact hsound y hys
              · obtain ⟨d₀, hd₀, hd₀x⟩ := hxreach
                obtain ⟨d, hd, hdy⟩ := (hreschar y).1 hyr
                exact ⟨d₀, hd₀, hd₀x.trans (Relation.ReflTransGen.head hd hdy)⟩
            · intro d hd
              exact (mem_addAll res s).2 (Or.inl (hdir d hd))
            · intro z hz y hzy
              rw [htake1] at hz
              rcases List.mem_append.1 hz with hzi | hzx
              · exact (mem_addAll res s).2 (Or.inl (hclosed z hzi y hzy))
              · have hzx : z = s.get ⟨i, h⟩ := by simpa using hzx
                subst hzx
                rcases hzy.cases_head with hyx | ⟨c, hc, hcy⟩
                · exact (mem_addAll res s).2 (Or.inl (hyx ▸ hxmem))
                · exact (mem_addAll res s).2 (Or.inr ((hreschar y).2 ⟨c, hc, hcy⟩))
      · rw [dif_neg h] at hl
        have hls : s = l := by injection hl
        subst hls
        refine ⟨hnd, fun x => ⟨fun hx => hsound x hx, fun hr => ?_⟩⟩
        obtain ⟨d, hd, hdx⟩ := hr
        have hds : d ∈ s := hdir d hd
        have htk : s.take i = s := List.take_of_length_le (by omega)
        exact hclosed d (by rw [htk]; exact hds) x hdx

/-! ## Claim theorems -/

/-- C1: the claim states that getLinkedQueries terminates for every
starting query even on cyclic reference graphs, with termination coming
from the dedup set.  The code violates this: the dedup set is created
afresh inside every recursive call, so on the graph in which query A
references itself no fuel budget suffices, i.e. the traversal never
returns. -/
theorem getLinkedQueries_diverges_on_self_cycle : glqDiverges selfRefGraph "A" := by
  intro n
  induction n with
  | zero => rfl
  | succ n ih =>
      show glqLoop (getLinkedQueriesFuel selfRefGraph n) n
          (addAll [] (directRefs selfRefGraph "A")) 0 = none
      have hd : addAll [] (directRefs selfRefGraph "A") = ["A"] := rfl
      rw [hd]
      cases n with
      | zero => rfl
      | succ m =>
          simp [glqLoop, ih]

/-- C2: requesting the same workbook identifier twice yields the same
instance: the second call returns the value of the first and leaves the
registry untouched, and when the identifier was not cached the first call
allocates the fresh instance and caches it. -/
theorem useWorkbook_same_instance (reg : WorkbookRegistry) (name : JSVal) :
    (useWorkbook (useWorkbook reg name).2 name).1 = (useWorkbook reg name).1 ∧
    (useWorkbook (useWorkbook reg name).2 name).2 = (useWorkbook reg name).2 ∧
    (reg.entries.lookup (jsString name) = none → (useWorkbook reg name).1 = reg.nextId) := by
  cases hl : reg.entries.lookup (jsString name) with
  | some wb => refine ⟨?_, ?_, ?_⟩ <;> simp [useWorkbook, hl]
  | none =>
      have h2 : ((reg.entries ++ [(jsString name, reg.nextId)]).lookup (jsString name)) =
          some reg.nextId := by
        rw [lookup_append_of_none hl, List.lookup_cons]
        simp
      refine ⟨?_, ?_, ?_⟩ <;> simp [useWorkbook, hl, h2]

/-- C2 witness: on the empty registry, asking twice for workbook wb1
returns the instance allocated by the first call. -/
theorem useWorkbook_same_instance_witness :
    (useWorkbook (useWorkbook ⟨[], 0⟩ (.str "wb1")).2 (.str "wb1")).1 =
      (useWorkbook ⟨[], 0⟩ (.str "wb1")).1 ∧
    (useWorkbook ⟨[], 0⟩ (.str "wb1")).1 = 0 :=
  ⟨(useWorkbook_same_instance ⟨[], 0⟩ (.str "wb1")).1,
   (useWorkbook_same_instance ⟨[], 0⟩ (.str "wb1")).2.2 rfl⟩

/-- C3 counterexample: the role-to-flags map of updateSharePermissions
sends the edit role to read = false, write = true, and the flags-to-role
map of getSharePermissions sends any row without read back to undefined,
so the round trip on the edit role does not return edit: the two mappings
are not mutually inverse as claimed. -/
theorem share_roundtrip_edit_counterexample :
    (mapRawToUI
        { user := "u", full_name := "n",
          read := (mapUIToOutbound { email := "u", full_name := "n", access := some .edit }).read,
          write := (mapUIToOutbound { email := "u", full_name := "n", access := some .edit }).write }).access
      ≠ some AccessRole.edit := by decide

/-- C3 amended: the two mappings are mutually inverse only on the view
side.  The view role round-trips; the edit role maps to read = false,
write = true and comes back as undefined; the flag pair read = true,
write = false round-trips, while read = true, write = true comes back as
read = false, write = true. -/
theorem share_roundtrip_amended :
    (mapRawToUI
        { user := "u", full_name := "n",
          read := (mapUIToOutbound { email := "u", full_name := "n", access := some .view }).read,
          write := (mapUIToOutbound { email := "u", full_name := "n", access := some .view }).write }).access
      = some AccessRole.view ∧
    (mapRawToUI
        { user := "u", full_name := "n",
          read := (mapUIToOutbound { email := "u", full_name := "n", access := some .edit }).read,
          write := (mapUIToOutbound { email := "u", full_name := "n", access := some .edit }).write }).access
      = none ∧
    (mapUIToOutbound (mapRawToUI { user := "u", full_name := "n", read := true, write := false }))
      = { user := "u", read := true, write := false } ∧
    (mapUIToOutbound (mapRawToUI { user := "u", full_name := "n", read := true, write := true }))
      = { user := "u", read := false, write := true } := by decide

/-- C4 counterexample: in a two-element query list, confirming removal of
the first item redirects to the workbook root even though a sibling
exists and the removed item is not the last one, refuting the claim that
the root redirect happens exactly on the last item. -/
theorem remove_first_redirects_to_root_despite_sibling :
    (removeEntityConfirmed "query" [⟨"A", "q1"⟩, ⟨"B", "q2"⟩] "A").nav =
      NavTarget.workbookRoot ∧
    findIndexJS (fun row => row.name == "A") [(⟨"A", "q1"⟩ : EntityRef), ⟨"B", "q2"⟩] = 0 ∧
    ([⟨"A", "q1"⟩, ⟨"B", "q2"⟩] : List EntityRef).length = 2 := by decide

/-- C4 amended: for every entity list, confirmed removal redirects to
the tab of the previous sibling, the item one index before the removed
one, whenever the removed item is not the first element, and redirects to
the workbook entity root exactly when the removed item is at index 0. -/
theorem removeEntity_nav_characterization (entityType : String) (items : List EntityRef)
    (name : String) :
    (findIndexJS (fun row => row.name == name) items = 0 →
      (removeEntityConfirmed entityType items name).nav = NavTarget.workbookRoot) ∧
    (∀ k : Nat, findIndexJS (fun row => row.name == name) items = (k : Int) + 1 →
      (removeEntityConfirmed entityType items name).nav =
        NavTarget.tab entityType (((items.get? k).map EntityRef.name).getD "")) := by
  constructor
  · intro h
    rw [removeEntityConfirmed, h]
    norm_num
  · intro k h
    have h2 : ((k : Int) + 1) - 1 = (k : Int) := by omega
    simp only [removeEntityConfirmed, h, h2]
    rw [if_neg (by omega : ¬((k : Int) + 1 = -1))]
    rw [if_pos (by omega : ((k : Int)) ≥ 0)]
    simp

/-- C4 witness: removing B from the list A, B, C redirects to the tab of
the previous sibling A. -/
theorem removeEntity_nav_characterization_witness :
    (removeEntityConfirmed "query" [⟨"A", "1"⟩, ⟨"B", "2"⟩, ⟨"C", "3"⟩] "B").nav =
      NavTarget.tab "query" "A" := by
  have h := (removeEntity_nav_characterization "query"
    [⟨"A", "1"⟩, ⟨"B", "2"⟩, ⟨"C", "3"⟩] "B").2 0 (by decide)
  exact h

/-- C5: the auto-save controller is a two-state machine.  Enabling moves
Idle to Watching and disabling moves Watching back to Idle; while
Watching a debounce firing persists the workbook exactly when it is dirty
and not paused; while Idle no event persists anything; the debounce delay
is the 2000ms constant; and on a concrete run, disabling stops
persistence and re-enabling resumes it. -/
theorem autoSave_state_machine :
    autoSaveHandleEnableChange false true = true ∧
    autoSaveHandleEnableChange true false = false ∧
    (∀ d p, (autoSaveStep true (.debounceFire d p)).2 = autoSaveShouldSave d p) ∧
    (∀ e, (autoSaveStep false e).2 = false) ∧
    autoSaveDebounceMs = 2000 ∧
    (autoSaveRun false
      [.enableChanged true, .debounceFire true false, .enableChanged false,
       .debounceFire true false, .enableChanged true, .debounceFire true false]).2 =
      [false, true, false, false, false, true] := by
  refine ⟨rfl, rfl, ?_, ?_, rfl, rfl⟩
  · intro d p; rfl
  · intro e; cases e <;> rfl

/-- C6 counterexample: on the graph in which A references B and B
references A, getLinkedQueries never returns for A under any fuel budget,
refuting the claim that it returns a flat list for every query. -/
theorem getLinkedQueries_diverges_on_two_cycle : glqDiverges twoCycleGraph "A" :=
  fun n => (glq_twoCycle_diverges_pair n).1

/-- C6 amended: whenever the traversal returns at all, the returned flat
list is duplicate-free and contains exactly the query names reachable
from the direct references of the effective, truncation-aware operation
list of the starting query. -/
theorem getLinkedQueriesFuel_characterization (G : String → QueryDef) (n : Nat)
    (q : String) (l : List String)
    (hl : getLinkedQueriesFuel G n q = some l) :
    l.Nodup ∧ ∀ x, (x ∈ l ↔ linkedReachable G q x) := by
  induction n generalizing q l with
  | zero => exact absurd hl (by simp [getLinkedQueriesFuel])
  | succ n ih =>
      rw [getLinkedQueriesFuel] at hl
      apply glqLoop_char G q (getLinkedQueriesFuel G n) ih n _ 0 l hl
      · exact nodup_addAll _ _ List.nodup_nil
      · simp
      · intro x hx
        rcases (mem_addAll _ _).1 hx with h0 | hd
        · simp at h0
        · exact ⟨x, hd, Relation.ReflTransGen.refl⟩
      · intro d hd
        exact (mem_addAll _ _).2 (Or.inr hd)
      · intro x hx
        simp at hx

/-- C6 witness: on the acyclic diamond graph the traversal returns the
list B, C, D, which is duplicate-free, and D is indeed reachable; the
reference of C to E beyond its active edit index is truncated away. -/
theorem getLinkedQueriesFuel_characterization_witness :
    (["B", "C", "D"] : List String).Nodup ∧
    ("D" ∈ (["B", "C", "D"] : List String) ↔ linkedReachable diamondGraph "A" "D") := by
  have h := getLinkedQueriesFuel_characterization diamondGraph 10 "A" ["B", "C", "D"]
    (by decide)
  exact ⟨h.1, h.2 "D"⟩

/-- C7: no destructive operation issues its remote delete before the user
confirms: with the confirmation declined, removeQuery, removeChart,
removeDashboard and deleteWorkbook perform no effect at all, and with it
granted they perform exactly the effects of the success continuation. -/
theorem destructive_requires_confirmation (items : List EntityRef) (name wbName : String) :
    removeQueryRun items name false = [] ∧
    removeChartRun items name false = [] ∧
    removeDashboardRun items name false = [] ∧
    deleteWorkbookRun wbName false = [] ∧
    removeQueryRun items name true = removeEntityEffects "query" items name ∧
    removeChartRun items name true = removeEntityEffects "chart" items name ∧
    removeDashboardRun items name true = removeEntityEffects "dashboard" items name :=
  ⟨rfl, rfl, rfl, rfl, rfl, rfl, rfl⟩

/-- C8 counterexample: the track_view call is a remote operation of the
module other than updateSharePermissions, yet its failure does not
propagate: the empty catch swallows it, refuting the claim that all other
remote operations let failures propagate implicitly. -/
theorem trackView_swallows_failure :
    trackViewOutcome (.err "boom") = { result := .ok (), errorToasts := [] } ∧
    (trackViewOutcome (.err "boom")).result ≠ RemoteResult.err "boom" := by decide

/-- C8 amended: a failing updateSharePermissions call is caught and
surfaced as one generic error toast while its promise resolves; a failing
getSharePermissions or entity delete call propagates the failure and
shows no toast; the track_view call swallows its failure silently with no
toast. -/
theorem share_error_handling (msg : String) :
    updateSharePermissionsOutcome (.err msg) = { result := .ok (), errorToasts := [msg] } ∧
    (∀ v, updateSharePermissionsOutcome (.ok v) = { result := .ok v, errorToasts := [] }) ∧
    getSharePermissionsOutcome (.err msg) = { result := .err msg, errorToasts := [] } ∧
    entityDeleteOutcome (.err msg) = { result := .err msg, errorToasts := [] } ∧
    trackViewOutcome (.err msg) = { result := .ok (), errorToasts := [] } := by
  refine ⟨rfl, ?_, rfl, rfl, rfl⟩
  intro v; rfl

/-- C9: useWorkbook coerces its argument to a string before consulting the
registry, so two arguments with the same string representation yield the
same workbook instance. -/
theorem useWorkbook_string_coercion (reg : WorkbookRegistry) (a b : JSVal)
    (h : jsString a = jsString b) :
    (useWorkbook (useWorkbook reg a).2 b).1 = (useWorkbook reg a).1 := by
  cases hl : reg.entries.lookup (jsString a) with
  | some wb => simp [useWorkbook, ← h, hl]
  | none =>
      have h2 : ((reg.entries ++ [(jsString a, reg.nextId)]).lookup (jsString a)) =
          some reg.nextId := by
        rw [lookup_append_of_none hl, List.lookup_cons]
        simp
      simp [useWorkbook, ← h, hl, h2]

/-- C9 witness: the number 123 and the string 123 name the same workbook
instance. -/
theorem useWorkbook_string_coercion_witness :
    (useWorkbook (useWorkbook ⟨[], 0⟩ (.num 123)).2 (.str "123")).1 =
      (useWorkbook ⟨[], 0⟩ (.num 123)).1 :=
  useWorkbook_string_coercion ⟨[], 0⟩ (.num 123) (.str "123") (by decide)

/-- C10: when the given name is absent from the entity list, the confirmed
removal is a no-op: findIndex yields -1, so no remote delete is issued,
the list is unchanged, no navigation occurs, and the effect trace is
empty. -/
theorem removeEntity_noop_when_absent (entityType : String) (items : List EntityRef)
    (name : String)
    (h : findIndexJS (fun row => row.name == name) items = -1) :
    removeEntityConfirmed entityType items name =
      { items := items, nav := NavTarget.none, remoteDeleteIssued := false } ∧
    removeEntityEffects entityType items name = [] := by
  constructor <;> simp [removeEntityConfirmed, removeEntityEffects, h]

/-- C10 witness: removing the absent name B from a singleton list with
entry A changes nothing and produces no effects. -/
theorem removeEntity_noop_when_absent_witness :
    removeEntityConfirmed "query" [⟨"A", "T"⟩] "B" =
      { items := [⟨"A", "T"⟩], nav := NavTarget.none, remoteDeleteIssued := false } ∧
    removeEntityEffects "query" [⟨"A", "T"⟩] "B" = [] :=
  removeEntity_noop_when_absent "query" [⟨"A", "T"⟩] "B" (by decide)
